import Mathlib

/-!
Shallow embedding of the kitties pallet (src/pallets/kitties/src/lib.rs):
an NFT-style asset registry with staking and a marketplace.  Storage maps
become functions `Nat → Option _`, the currency ledger becomes explicit
free/reserved balance functions, machine integers become `Nat` (the index
type is guarded against overflow by the code itself, so no wrapping
arithmetic is involved), and fallible dispatchables return `Except`.
The host's randomness beacon is modelled by passing the generated 16-byte
value as an explicit argument.
-/

/-- Pointwise update of a map modelled as a function. -/
def upd {α : Type} (f : Nat → α) (k : Nat) (v : α) : Nat → α :=
  fun i => if i = k then v else f i

/-- The asset record: a 16-byte genetic code (`struct Kitty { dna: [u8;16] }`). -/
structure Kitty where
  dna : Fin 16 → Nat
  deriving DecidableEq

/-- The pallet's event type (`enum Event<T>`). -/
inductive Event where
  | KittyCreate (who : Nat) (idx : Nat)
  | KittyTransfer (src : Nat) (dst : Nat) (idx : Nat)
  | KittyListed (who : Nat) (idx : Nat) (price : Option Nat)
  | KittySold (buyer : Nat) (seller : Nat) (idx : Nat)
  deriving DecidableEq

/-- The pallet's error type (`enum Error<T>`), extended with one case for a
propagated currency-transfer error (`T::Currency::transfer(...)?` propagates
the currency ledger's own error, which is not a variant of `Error<T>`). -/
inductive Err where
  | KittiesCountOverflow
  | NotOwner
  | SameParentIndex
  | InvalidKittyIndex
  | BuyerIsOwner
  | KittyNotForSell
  | NotEnoughBalanceForBuying
  | NotEnoughBalanceForStaking
  | CurrencyTransferError
  deriving DecidableEq

/-- Runtime configuration constants (`Config`): the stake unit
(`StakeForEachKitty`), the maximum representable kitty index
(`KittyIndex::max_value()`), and the currency's existential deposit
(the minimum balance the `KeepAlive` transfer must preserve). -/
structure Config where
  stake : Nat
  maxIndex : Nat
  ed : Nat

/-- Full observable state: the pallet's four storage items, the currency
ledger's free and reserved balances, and the emitted events. -/
structure St where
  kittiesCount : Option Nat
  kitties : Nat → Option Kitty
  owner : Nat → Option Nat
  listForSale : Nat → Option Nat
  free : Nat → Nat
  reserved : Nat → Nat
  events : List Event

/-- Modelled from the spec: the currency ledger's `reserve` (§4.3, §6) —
locks `amt` against the account's spendable balance, failing iff the free
balance is insufficient.  The ledger itself is a host collaborator, not in
src/. -/
def reserveC (st : St) (a : Nat) (amt : Nat) : Option St :=
  if amt ≤ st.free a then
    some { st with free := upd st.free a (st.free a - amt),
                   reserved := upd st.reserved a (st.reserved a + amt) }
  else none

/-- Modelled from the spec: the currency ledger's `unreserve` (§4.3, §6) —
unlocks up to `amt` of the previously reserved balance; never fails. -/
def unreserveC (st : St) (a : Nat) (amt : Nat) : St :=
  let m := min amt (st.reserved a)
  { st with reserved := upd st.reserved a (st.reserved a - m),
            free := upd st.free a (st.free a + m) }

/-- Modelled from the spec: the currency ledger's `transfer` with
`ExistenceRequirement::KeepAlive` (§4.4, §6) — moves `amt` from `src` to
`dst`, failing iff `src`'s free balance is insufficient or would drop below
the existential deposit. -/
def transferC (cfg : Config) (st : St) (src : Nat) (dst : Nat) (amt : Nat) :
    Option St :=
  if amt ≤ st.free src ∧ cfg.ed ≤ st.free src - amt then
    let f1 := upd st.free src (st.free src - amt)
    some { st with free := upd f1 dst (f1 dst + amt) }
  else none

/-- `Self::deposit_event`: append an event to the emitted list. -/
def depositEvent (st : St) (e : Event) : St :=
  { st with events := st.events ++ [e] }

/-- The registry counter's value as the code reads it: `Some id => id`,
`None => 0u32.into()`. -/
def countVal (st : St) : Nat :=
  st.kittiesCount.getD 0

/-- Tail of `create_kitty_with_stake` once the new id is determined:
reserve the stake (mapping failure to `NotEnoughBalanceForStaking`), store
the kitty, bind the owner, advance the counter, emit `KittyCreate`. -/
def doCreate (cfg : Config) (st : St) (who : Nat) (dna : Fin 16 → Nat)
    (kittyId : Nat) : Except Err St :=
  match reserveC st who cfg.stake with
  | none => .error .NotEnoughBalanceForStaking
  | some st1 =>
      .ok (depositEvent
        { st1 with kitties := upd st1.kitties kittyId (some ⟨dna⟩),
                   owner := upd st1.owner kittyId (some who),
                   kittiesCount := some (kittyId + 1) }
        (.KittyCreate who kittyId))

/-- `create_kitty_with_stake(owner, dna)` (lib.rs:214-237): compute the new
id from the counter (failing with `KittiesCountOverflow` at the maximum,
defaulting to 0 when unset), then run the shared creation tail. -/
def create_kitty_with_stake (cfg : Config) (st : St) (who : Nat)
    (dna : Fin 16 → Nat) : Except Err St :=
  match st.kittiesCount with
  | some id =>
      if id = cfg.maxIndex then .error .KittiesCountOverflow
      else doCreate cfg st who dna id
  | none => doCreate cfg st who dna 0

/-- `create(origin)` (lib.rs:90-96): the randomly generated dna is passed in
explicitly (the randomness beacon is a host collaborator). -/
def create (cfg : Config) (st : St) (who : Nat) (dna : Fin 16 → Nat) :
    Except Err St :=
  create_kitty_with_stake cfg st who dna

/-- The dna-mixing loop of `breed` (lib.rs:118-121):
`new_dna[i] = (selector[i] & dna_1[i]) | (!selector[i] & dna_2[i])`, with
the `u8` bitwise NOT written as xor with 255. -/
def childDna (sel d1 d2 : Fin 16 → Nat) : Fin 16 → Nat :=
  fun i => (sel i &&& d1 i) ||| ((255 ^^^ sel i) &&& d2 i)

/-- `breed(origin, kitty_id_1, kitty_id_2)` (lib.rs:100-124), with the
freshly generated selector passed in explicitly. -/
def breed (cfg : Config) (st : St) (who : Nat) (id1 id2 : Nat)
    (sel : Fin 16 → Nat) : Except Err St :=
  if id1 = id2 then .error .SameParentIndex
  else
    match st.kitties id1 with
    | none => .error .InvalidKittyIndex
    | some k1 =>
        match st.kitties id2 with
        | none => .error .InvalidKittyIndex
        | some k2 => create_kitty_with_stake cfg st who (childDna sel k1.dna k2.dna)

/-- `sell(origin, kitty_id, price)` (lib.rs:128-141). -/
def sell (st : St) (who : Nat) (kittyId : Nat) (price : Option Nat) :
    Except Err St :=
  if some who = st.owner kittyId then
    .ok (depositEvent { st with listForSale := upd st.listForSale kittyId price }
      (.KittyListed who kittyId price))
  else .error .NotOwner

/-- `transfer(origin, new_owner, kitty_id)` (lib.rs:145-166): ownership
check, reserve for the new owner (failure maps to
`NotEnoughBalanceForStaking`), unreserve the old owner, reassign, emit. -/
def transfer (cfg : Config) (st : St) (who : Nat) (newOwner : Nat)
    (kittyId : Nat) : Except Err St :=
  if some who = st.owner kittyId then
    match reserveC st newOwner cfg.stake with
    | none => .error .NotEnoughBalanceForStaking
    | some st1 =>
        .ok (depositEvent
          { unreserveC st1 who cfg.stake with
              owner := upd (unreserveC st1 who cfg.stake).owner kittyId (some newOwner) }
          (.KittyTransfer who newOwner kittyId))
  else .error .NotOwner

/-- Outcome of `buy`, which unlike the other dispatchables can panic:
`Owner::<T>::get(kitty_id).unwrap()` (lib.rs:173) aborts with a panic when
the asset has no recorded owner. -/
inductive Outcome where
  | ok (st : St)
  | err (e : Err)
  | panicked

/-- `buy(origin, kitty_id)` (lib.rs:170-201): unwrap the owner (panicking
if absent), reject self-purchase, require a listed price, require the
buyer's free balance to strictly exceed price + stake, reserve the buyer's
stake, unreserve the seller's, pay the price (propagating the currency
error), reassign ownership, clear the listing, emit `KittySold`. -/
def buy (cfg : Config) (st : St) (buyer : Nat) (kittyId : Nat) : Outcome :=
  match st.owner kittyId with
  | none => .panicked
  | some seller =>
      if buyer = seller then .err .BuyerIsOwner
      else
        match st.listForSale kittyId with
        | none => .err .KittyNotForSell
        | some price =>
            if st.free buyer > price + cfg.stake then
              match reserveC st buyer cfg.stake with
              | none => .err .NotEnoughBalanceForStaking
              | some st1 =>
                  match transferC cfg (unreserveC st1 seller cfg.stake) buyer seller price with
                  | none => .err .CurrencyTransferError
                  | some st3 =>
                      .ok (depositEvent
                        { st3 with owner := upd st3.owner kittyId (some buyer),
                                   listForSale := upd st3.listForSale kittyId none }
                        (.KittySold buyer seller kittyId))
            else .err .NotEnoughBalanceForBuying

/-- Modelled from the spec: the host's transactional dispatch (§5) rolls
back all state on error, so the observable post-state of a failed
dispatchable is the pre-state.  The host machinery is not in src/. -/
def dispatchPost (pre : St) : Except Err St → St
  | .ok st => st
  | .error _ => pre

/-- Modelled from the spec: the same host rollback (§5) for `buy`'s
three-valued outcome. -/
def buyPost (pre : St) : Outcome → St
  | .ok st => st
  | _ => pre

/-- The genesis state: no counter, empty storage maps, no reservations, and
an arbitrary initial free-balance assignment. -/
def initSt (free0 : Nat → Nat) : St :=
  { kittiesCount := none
    kitties := fun _ => none
    owner := fun _ => none
    listForSale := fun _ => none
    free := free0
    reserved := fun _ => 0
    events := [] }

/-- One successful public operation of the pallet. -/
inductive Step (cfg : Config) : St → St → Prop where
  | create (st st' : St) (who : Nat) (dna : Fin 16 → Nat) :
      create cfg st who dna = .ok st' → Step cfg st st'
  | breed (st st' : St) (who id1 id2 : Nat) (sel : Fin 16 → Nat) :
      breed cfg st who id1 id2 sel = .ok st' → Step cfg st st'
  | sell (st st' : St) (who kittyId : Nat) (price : Option Nat) :
      sell st who kittyId price = .ok st' → Step cfg st st'
  | transfer (st st' : St) (who newOwner kittyId : Nat) :
      transfer cfg st who newOwner kittyId = .ok st' → Step cfg st st'
  | buy (st st' : St) (buyer kittyId : Nat) :
      buy cfg st buyer kittyId = .ok st' → Step cfg st st'

/-- States reachable from genesis by successful operations. -/
inductive Reachable (cfg : Config) : St → Prop where
  | init (free0 : Nat → Nat) : Reachable cfg (initSt free0)
  | step (st st' : St) : Reachable cfg st → Step cfg st st' → Reachable cfg st'

/-- Registry freshness invariant: every index at or above the counter's
value is unassigned (no record, no owner). -/
def FreshInv (st : St) : Prop :=
  ∀ i, countVal st ≤ i → st.kitties i = none ∧ st.owner i = none

/-- A uniform free-balance assignment used in concrete examples. -/
def free10 : Nat → Nat := fun _ => 10

/-- An all-zero genetic code. -/
def dna0 : Fin 16 → Nat := fun _ => 0

/-- Parent code with byte pattern 10101010. -/
def dnaA : Fin 16 → Nat := fun _ => 170

/-- Parent code with byte pattern 01010101. -/
def dnaB : Fin 16 → Nat := fun _ => 85

/-- Selector with byte pattern 11110000. -/
def selC : Fin 16 → Nat := fun _ => 240

/-- A concrete configuration: stake unit 1, maximum index 100, existential
deposit 10. -/
def cfg0 : Config := { stake := 1, maxIndex := 100, ed := 10 }

/-- A concrete marketplace state: kitty 0 owned by account 2 and listed at
price 5; account 1 holds 7 free, account 3 exactly 6, account 4 nothing. -/
def stA : St :=
  { kittiesCount := some 1
    kitties := upd (fun _ => none) 0 (some ⟨dna0⟩)
    owner := upd (fun _ => none) 0 (some 2)
    listForSale := upd (fun _ => none) 0 (some 5)
    free := fun a => if a = 1 then 7 else if a = 3 then 6 else if a = 4 then 0 else 10
    reserved := fun a => if a = 2 then 1 else 0
    events := [] }

/-- A genesis state whose accounts hold nothing. -/
def stPoor : St := initSt (fun _ => 0)

/-- A state whose registry counter sits at the maximum index. -/
def stMax : St := { initSt free10 with kittiesCount := some cfg0.maxIndex }

/-- A state holding two parent kitties (indices 0 and 1) owned by account 1. -/
def stB : St :=
  { kittiesCount := some 2
    kitties := upd (upd (fun _ => none) 0 (some ⟨dnaA⟩)) 1 (some ⟨dnaB⟩)
    owner := upd (upd (fun _ => none) 0 (some 1)) 1 (some 1)
    listForSale := fun _ => none
    free := free10
    reserved := fun a => if a = 1 then 2 else 0
    events := [] }

/-- The state produced by a concrete successful creation from genesis. -/
def stW : St :=
  match create_kitty_with_stake cfg0 (initSt free10) 1 dna0 with
  | .ok s => s
  | _ => initSt free10

/-- The state produced by a concrete successful breeding in `stB`. -/
def stBW : St :=
  match breed cfg0 stB 1 0 1 selC with
  | .ok s => s
  | _ => stB

/-- The state produced by a concrete successful direct transfer in `stA`. -/
def stTW : St :=
  match transfer cfg0 stA 2 3 0 with
  | .ok s => s
  | _ => stA

/-! ### Helper lemmas: inversion of the operations' success and failure -/

lemma reserveC_some (st st' : St) (a amt : Nat) (h : reserveC st a amt = some st') :
    amt ≤ st.free a ∧
    st' = { st with free := upd st.free a (st.free a - amt),
                    reserved := upd st.reserved a (st.reserved a + amt) } := by
  unfold reserveC at h
  split at h
  · next hle => exact ⟨hle, by injection h with h; exact h.symm⟩
  · exact Option.noConfusion h

lemma reserveC_of_le (st : St) (a amt : Nat) (h : amt ≤ st.free a) :
    reserveC st a amt =
      some { st with free := upd st.free a (st.free a - amt),
                     reserved := upd st.reserved a (st.reserved a + amt) } := by
  unfold reserveC
  rw [if_pos h]

lemma reserveC_none (st : St) (a amt : Nat) (h : st.free a < amt) :
    reserveC st a amt = none := by
  unfold reserveC
  rw [if_neg (by omega)]

lemma transferC_some (cfg : Config) (st st' : St) (src dst amt : Nat)
    (h : transferC cfg st src dst amt = some st') :
    amt ≤ st.free src ∧ cfg.ed ≤ st.free src - amt ∧
    st'.kitties = st.kitties ∧ st'.owner = st.owner ∧
    st'.listForSale = st.listForSale ∧ st'.kittiesCount = st.kittiesCount ∧
    st'.reserved = st.reserved ∧ st'.events = st.events := by
  unfold transferC at h
  split at h
  · next hc =>
      injection h with h
      exact ⟨hc.1, hc.2, by rw [← h], by rw [← h], by rw [← h], by rw [← h],
        by rw [← h], by rw [← h]⟩
  · exact Option.noConfusion h

lemma transferC_none (cfg : Config) (st : St) (src dst amt : Nat)
    (h : st.free src - amt < cfg.ed) :
    transferC cfg st src dst amt = none := by
  unfold transferC
  rw [if_neg (by omega)]

lemma doCreate_ok (cfg : Config) (st st' : St) (who : Nat) (dna : Fin 16 → Nat)
    (kid : Nat) (h : doCreate cfg st who dna kid = .ok st') :
    ∃ st1, reserveC st who cfg.stake = some st1 ∧
      st' = depositEvent
        { st1 with kitties := upd st1.kitties kid (some ⟨dna⟩),
                   owner := upd st1.owner kid (some who),
                   kittiesCount := some (kid + 1) }
        (.KittyCreate who kid) := by
  unfold doCreate at h
  rcases hr : reserveC st who cfg.stake with _ | st1
  · rw [hr] at h; exact Except.noConfusion h
  · rw [hr] at h; injection h with h; exact ⟨st1, rfl, h.symm⟩

lemma doCreate_ne_overflow (cfg : Config) (st : St) (who : Nat)
    (dna : Fin 16 → Nat) (kid : Nat) :
    doCreate cfg st who dna kid ≠ .error .KittiesCountOverflow := by
  unfold doCreate
  rcases reserveC st who cfg.stake with _ | st1
  · intro h; injection h with h; exact Err.noConfusion h
  · intro h; exact Except.noConfusion h

lemma cks_ok (cfg : Config) (st st' : St) (who : Nat) (dna : Fin 16 → Nat)
    (h : create_kitty_with_stake cfg st who dna = .ok st') :
    st.kittiesCount ≠ some cfg.maxIndex ∧
    doCreate cfg st who dna (countVal st) = .ok st' := by
  unfold create_kitty_with_stake at h
  split at h
  · next id heq =>
      split at h
      · exact Except.noConfusion h
      · next hne =>
          have hcv : countVal st = id := by simp [countVal, heq]
          refine ⟨?_, by rw [hcv]; exact h⟩
          rw [heq]; simp [hne]
  · next heq =>
      have hcv : countVal st = 0 := by simp [countVal, heq]
      exact ⟨by rw [heq]; simp, by rw [hcv]; exact h⟩

lemma sell_ok_inv (st st' : St) (who kittyId : Nat) (price : Option Nat)
    (h : sell st who kittyId price = .ok st') :
    st.owner kittyId = some who ∧
    st' = depositEvent { st with listForSale := upd st.listForSale kittyId price }
      (.KittyListed who kittyId price) := by
  unfold sell at h
  split at h
  · next hw => exact ⟨hw.symm, by injection h with h; exact h.symm⟩
  · exact Except.noConfusion h

lemma transfer_ok_inv (cfg : Config) (st st' : St) (who newOwner kittyId : Nat)
    (h : transfer cfg st who newOwner kittyId = .ok st') :
    st.owner kittyId = some who ∧
    ∃ st1, reserveC st newOwner cfg.stake = some st1 ∧
      st' = depositEvent
        { unreserveC st1 who cfg.stake with
            owner := upd (unreserveC st1 who cfg.stake).owner kittyId (some newOwner) }
        (.KittyTransfer who newOwner kittyId) := by
  unfold transfer at h
  split at h
  · next hw =>
      rcases hr : reserveC st newOwner cfg.stake with _ | st1
      · rw [hr] at h; exact Except.noConfusion h
      · rw [hr] at h; injection h with h
        exact ⟨hw.symm, st1, rfl, h.symm⟩
  · exact Except.noConfusion h

lemma buy_ok_inv (cfg : Config) (st st' : St) (buyer kittyId : Nat)
    (h : buy cfg st buyer kittyId = .ok st') :
    ∃ seller price st1 st3,
      st.owner kittyId = some seller ∧ buyer ≠ seller ∧
      st.listForSale kittyId = some price ∧
      price + cfg.stake < st.free buyer ∧
      reserveC st buyer cfg.stake = some st1 ∧
      transferC cfg (unreserveC st1 seller cfg.stake) buyer seller price = some st3 ∧
      st' = depositEvent
        { st3 with owner := upd st3.owner kittyId (some buyer),
                   listForSale := upd st3.listForSale kittyId none }
        (.KittySold buyer seller kittyId) := by
  unfold buy at h
  split at h
  · exact Outcome.noConfusion h
  · next seller ho =>
      split at h
      · exact Outcome.noConfusion h
      · next hne =>
          split at h
          · exact Outcome.noConfusion h
          · next price hl =>
              split at h
              · next hbal =>
                  split at h
                  · exact Outcome.noConfusion h
                  · next st1 hr =>
                      split at h
                      · exact Outcome.noConfusion h
                      · next st3 ht =>
                          injection h with h
                          exact ⟨seller, price, st1, st3, ho, hne, hl, hbal, hr, ht, h.symm⟩
              · exact Outcome.noConfusion h

lemma upd_self {α : Type} (f : Nat → α) (k : Nat) (v : α) : upd f k v k = v := by
  unfold upd; rw [if_pos rfl]

lemma upd_ne {α : Type} (f : Nat → α) (k : Nat) (v : α) (i : Nat) (h : i ≠ k) :
    upd f k v i = f i := by
  unfold upd; rw [if_neg h]

lemma cks_ok_fields (cfg : Config) (st st' : St) (who : Nat) (dna : Fin 16 → Nat)
    (h : create_kitty_with_stake cfg st who dna = .ok st') :
    st'.kitties = upd st.kitties (countVal st) (some ⟨dna⟩) ∧
    st'.owner = upd st.owner (countVal st) (some who) ∧
    st'.kittiesCount = some (countVal st + 1) ∧
    st'.listForSale = st.listForSale ∧
    st'.events = st.events ++ [.KittyCreate who (countVal st)] ∧
    cfg.stake ≤ st.free who ∧
    st.kittiesCount ≠ some cfg.maxIndex := by
  obtain ⟨hmax, hdo⟩ := cks_ok cfg st st' who dna h
  obtain ⟨st1, hr, rfl⟩ := doCreate_ok cfg st st' who dna (countVal st) hdo
  obtain ⟨hle, rfl⟩ := reserveC_some st st1 who cfg.stake hr
  exact ⟨rfl, rfl, rfl, rfl, rfl, hle, hmax⟩

lemma breed_ok_cks (cfg : Config) (st st' : St) (who id1 id2 : Nat)
    (sel : Fin 16 → Nat) (h : breed cfg st who id1 id2 sel = .ok st') :
    ∃ dna, create_kitty_with_stake cfg st who dna = .ok st' := by
  unfold breed at h
  split at h
  · exact Except.noConfusion h
  · split at h
    · exact Except.noConfusion h
    · next k1 h1 =>
        split at h
        · exact Except.noConfusion h
        · next k2 h2 => exact ⟨_, h⟩

lemma sell_ok_fields (st st' : St) (who kittyId : Nat) (price : Option Nat)
    (h : sell st who kittyId price = .ok st') :
    st.owner kittyId = some who ∧
    st'.kitties = st.kitties ∧ st'.owner = st.owner ∧
    st'.listForSale = upd st.listForSale kittyId price ∧
    st'.kittiesCount = st.kittiesCount ∧
    st'.events = st.events ++ [.KittyListed who kittyId price] := by
  obtain ⟨hw, rfl⟩ := sell_ok_inv st st' who kittyId price h
  exact ⟨hw, rfl, rfl, rfl, rfl, rfl⟩

lemma transfer_ok_fields (cfg : Config) (st st' : St) (who newOwner kittyId : Nat)
    (h : transfer cfg st who newOwner kittyId = .ok st') :
    st.owner kittyId = some who ∧
    st'.owner = upd st.owner kittyId (some newOwner) ∧
    st'.kitties = st.kitties ∧
    st'.listForSale = st.listForSale ∧
    st'.kittiesCount = st.kittiesCount ∧
    st'.events = st.events ++ [.KittyTransfer who newOwner kittyId] ∧
    cfg.stake ≤ st.free newOwner := by
  obtain ⟨hw, st1, hr, rfl⟩ := transfer_ok_inv cfg st st' who newOwner kittyId h
  obtain ⟨hle, rfl⟩ := reserveC_some st st1 newOwner cfg.stake hr
  exact ⟨hw, rfl, rfl, rfl, rfl, rfl, hle⟩

lemma buy_ok_fields (cfg : Config) (st st' : St) (buyer kittyId : Nat)
    (h : buy cfg st buyer kittyId = .ok st') :
    ∃ seller price,
      st.owner kittyId = some seller ∧ buyer ≠ seller ∧
      st.listForSale kittyId = some price ∧
      price + cfg.stake < st.free buyer ∧
      st'.owner = upd st.owner kittyId (some buyer) ∧
      st'.kitties = st.kitties ∧
      st'.listForSale = upd st.listForSale kittyId none ∧
      st'.kittiesCount = st.kittiesCount ∧
      st'.events = st.events ++ [.KittySold buyer seller kittyId] := by
  obtain ⟨seller, price, st1, st3, ho, hne, hl, hbal, hr, ht, rfl⟩ :=
    buy_ok_inv cfg st st' buyer kittyId h
  obtain ⟨hle, rfl⟩ := reserveC_some st st1 buyer cfg.stake hr
  obtain ⟨_, _, hk, hown, hlist, hcnt, _, hev⟩ :=
    transferC_some cfg _ st3 buyer seller price ht
  refine ⟨seller, price, ho, hne, hl, hbal, ?_, ?_, ?_, ?_, ?_⟩
  · show upd st3.owner kittyId (some buyer) = _
    rw [hown]; rfl
  · show st3.kitties = _
    rw [hk]; rfl
  · show upd st3.listForSale kittyId none = _
    rw [hlist]; rfl
  · show st3.kittiesCount = _
    rw [hcnt]; rfl
  · show st3.events ++ _ = _
    rw [hev]; rfl


lemma countVal_eq (st : St) (n : Nat) (h : st.kittiesCount = some n) :
    countVal st = n := by
  unfold countVal; rw [h]; rfl

lemma countVal_none (st : St) (h : st.kittiesCount = none) :
    countVal st = 0 := by
  unfold countVal; rw [h]; rfl

lemma countVal_congr (st st' : St) (h : st'.kittiesCount = st.kittiesCount) :
    countVal st' = countVal st := by
  unfold countVal; rw [h]

lemma step_count (cfg : Config) (st st' : St) (h : Step cfg st st') :
    st'.kittiesCount = st.kittiesCount ∨
    (st.kittiesCount ≠ some cfg.maxIndex ∧
     st'.kittiesCount = some (countVal st + 1)) := by
  cases h with
  | create who dna hc =>
      obtain ⟨_, _, hcnt, _, _, _, hmax⟩ := cks_ok_fields cfg st st' who dna hc
      exact Or.inr ⟨hmax, hcnt⟩
  | breed who id1 id2 sel hb =>
      obtain ⟨dna, hc⟩ := breed_ok_cks cfg st st' who id1 id2 sel hb
      obtain ⟨_, _, hcnt, _, _, _, hmax⟩ := cks_ok_fields cfg st st' who dna hc
      exact Or.inr ⟨hmax, hcnt⟩
  | sell who kittyId price hs =>
      obtain ⟨_, _, _, _, hcnt, _⟩ := sell_ok_fields st st' who kittyId price hs
      exact Or.inl hcnt
  | transfer who newOwner kittyId ht =>
      obtain ⟨_, _, _, _, hcnt, _, _⟩ :=
        transfer_ok_fields cfg st st' who newOwner kittyId ht
      exact Or.inl hcnt
  | buy buyer kittyId hb =>
      obtain ⟨seller, price, _, _, _, _, _, _, _, hcnt, _⟩ :=
        buy_ok_fields cfg st st' buyer kittyId hb
      exact Or.inl hcnt

lemma step_count_mono (cfg : Config) (st st' : St) (h : Step cfg st st') :
    countVal st ≤ countVal st' := by
  rcases step_count cfg st st' h with hc | ⟨_, hc⟩
  · have h1 := countVal_congr st st' hc
    omega
  · have h1 := countVal_eq st' _ hc
    omega

lemma step_fresh (cfg : Config) (st st' : St) (hf : FreshInv st)
    (h : Step cfg st st') : FreshInv st' := by
  have owner_lt : ∀ k a, st.owner k = some a → k < countVal st := by
    intro k a hk
    by_contra hge
    have := (hf k (by omega)).2
    rw [this] at hk
    exact Option.noConfusion hk
  cases h with
  | create who dna hc =>
      obtain ⟨hk, hown, hcnt, _, _, _, _⟩ := cks_ok_fields cfg st st' who dna hc
      intro i hi
      rw [countVal_eq st' _ hcnt] at hi
      constructor
      · rw [hk, upd_ne _ _ _ _ (by omega)]; exact (hf i (by omega)).1
      · rw [hown, upd_ne _ _ _ _ (by omega)]; exact (hf i (by omega)).2
  | breed who id1 id2 sel hb =>
      obtain ⟨dna, hc⟩ := breed_ok_cks cfg st st' who id1 id2 sel hb
      obtain ⟨hk, hown, hcnt, _, _, _, _⟩ := cks_ok_fields cfg st st' who dna hc
      intro i hi
      rw [countVal_eq st' _ hcnt] at hi
      constructor
      · rw [hk, upd_ne _ _ _ _ (by omega)]; exact (hf i (by omega)).1
      · rw [hown, upd_ne _ _ _ _ (by omega)]; exact (hf i (by omega)).2
  | sell who kittyId price hs =>
      obtain ⟨_, hk, hown, _, hcnt, _⟩ := sell_ok_fields st st' who kittyId price hs
      intro i hi
      rw [countVal_congr st st' hcnt] at hi
      rw [hk, hown]
      exact hf i hi
  | transfer who newOwner kittyId ht =>
      obtain ⟨hw, hown, hk, _, hcnt, _, _⟩ :=
        transfer_ok_fields cfg st st' who newOwner kittyId ht
      intro i hi
      rw [countVal_congr st st' hcnt] at hi
      have hlt := owner_lt kittyId who hw
      constructor
      · rw [hk]; exact (hf i hi).1
      · rw [hown, upd_ne _ _ _ _ (by omega)]; exact (hf i hi).2
  | buy buyer kittyId hb =>
      obtain ⟨seller, price, hw, _, _, _, hown, hk, _, hcnt, _⟩ :=
        buy_ok_fields cfg st st' buyer kittyId hb
      intro i hi
      rw [countVal_congr st st' hcnt] at hi
      have hlt := owner_lt kittyId seller hw
      constructor
      · rw [hk]; exact (hf i hi).1
      · rw [hown, upd_ne _ _ _ _ (by omega)]; exact (hf i hi).2

lemma reachable_fresh (cfg : Config) (st : St) (h : Reachable cfg st) :
    FreshInv st := by
  induction h with
  | init free0 => intro i _; exact ⟨rfl, rfl⟩
  | step st st' _ hstep ih => exact step_fresh cfg st st' ih hstep

lemma reachable_count_le (cfg : Config) (st : St) (hmax : 0 < cfg.maxIndex)
    (h : Reachable cfg st) : countVal st ≤ cfg.maxIndex := by
  induction h with
  | init free0 => exact Nat.zero_le _
  | step st st' hr hstep ih =>
      rcases step_count cfg st st' hstep with hc | ⟨hne, hc⟩
      · have h1 := countVal_congr st st' hc
        omega
      · have h1 := countVal_eq st' _ hc
        rcases hcc : st.kittiesCount with _ | id
        · have h0 := countVal_none st hcc
          omega
        · have h2 := countVal_eq st _ hcc
          have h3 : id ≠ cfg.maxIndex := fun he => hne (by rw [hcc, he])
          omega

lemma unreserveC_free_ne (st : St) (a amt b : Nat) (h : b ≠ a) :
    (unreserveC st a amt).free b = st.free b := by
  show upd st.free a (st.free a + min amt (st.reserved a)) b = st.free b
  rw [upd_ne _ _ _ _ h]

lemma unreserveC_reserved_ne (st : St) (a amt b : Nat) (h : b ≠ a) :
    (unreserveC st a amt).reserved b = st.reserved b := by
  show upd st.reserved a (st.reserved a - min amt (st.reserved a)) b = st.reserved b
  rw [upd_ne _ _ _ _ h]

lemma buy_panics (cfg : Config) (st : St) (buyer kittyId : Nat)
    (ho : st.owner kittyId = none) :
    buy cfg st buyer kittyId = .panicked := by
  simp only [buy, ho]

lemma buy_not_panicked (cfg : Config) (st : St) (buyer kittyId seller : Nat)
    (ho : st.owner kittyId = some seller) :
    buy cfg st buyer kittyId ≠ .panicked := by
  intro h
  unfold buy at h
  split at h
  · next heq => rw [ho] at heq; exact Option.noConfusion heq
  · next s heq =>
      split at h
      · exact Outcome.noConfusion h
      · split at h
        · exact Outcome.noConfusion h
        · next price hl =>
            split at h
            · split at h
              · exact Outcome.noConfusion h
              · split at h
                · exact Outcome.noConfusion h
                · exact Outcome.noConfusion h
            · exact Outcome.noConfusion h

lemma buy_insufficient (cfg : Config) (st : St) (buyer kittyId seller price : Nat)
    (ho : st.owner kittyId = some seller) (hne : buyer ≠ seller)
    (hl : st.listForSale kittyId = some price)
    (hbal : st.free buyer ≤ price + cfg.stake) :
    buy cfg st buyer kittyId = .err .NotEnoughBalanceForBuying := by
  simp only [buy, ho, hl]
  rw [if_neg hne, if_neg (by omega)]

lemma buy_transfer_fails (cfg : Config) (st : St) (buyer kittyId seller price : Nat)
    (ho : st.owner kittyId = some seller) (hne : buyer ≠ seller)
    (hl : st.listForSale kittyId = some price)
    (hbal : price + cfg.stake < st.free buyer)
    (hed : st.free buyer - cfg.stake - price < cfg.ed) :
    buy cfg st buyer kittyId = .err .CurrencyTransferError := by
  have hR := reserveC_of_le st buyer cfg.stake (by omega)
  simp only [buy, ho, hl]
  rw [if_neg hne, if_pos hbal]
  simp only [hR]
  have hfb : (unreserveC
      { st with free := upd st.free buyer (st.free buyer - cfg.stake),
                reserved := upd st.reserved buyer (st.reserved buyer + cfg.stake) }
      seller cfg.stake).free buyer = st.free buyer - cfg.stake := by
    rw [unreserveC_free_ne _ _ _ _ hne]
    exact upd_self _ _ _
  rw [transferC_none cfg _ buyer seller price (by rw [hfb]; omega)]

lemma breed_ok_inv (cfg : Config) (st st' : St) (who id1 id2 : Nat)
    (sel : Fin 16 → Nat) (k1 k2 : Kitty)
    (h1 : st.kitties id1 = some k1) (h2 : st.kitties id2 = some k2)
    (hb : breed cfg st who id1 id2 sel = .ok st') :
    create_kitty_with_stake cfg st who (childDna sel k1.dna k2.dna) = .ok st' := by
  unfold breed at hb
  split at hb
  · exact Except.noConfusion hb
  · split at hb
    · exact Except.noConfusion hb
    · next k1' heq1 =>
        split at hb
        · exact Except.noConfusion hb
        · next k2' heq2 =>
            rw [h1] at heq1
            injection heq1 with e1
            rw [h2] at heq2
            injection heq2 with e2
            subst e1; subst e2
            exact hb

lemma mux_testBit (s a b j : Nat) (hj : j < 8) :
    ((s &&& a) ||| ((255 ^^^ s) &&& b)).testBit j =
      if s.testBit j then a.testBit j else b.testBit j := by
  have h255 : (255 : Nat).testBit j = true := by
    interval_cases j <;> decide
  rcases hs : s.testBit j with _ | _
  · simp [Nat.testBit_lor, Nat.testBit_land, Nat.testBit_xor, hs, h255]
  · simp [Nat.testBit_lor, Nat.testBit_land, Nat.testBit_xor, hs, h255]

/-! ### Claim theorems -/

/-- Claim C1: in `buy`, when the ownership, self-purchase, listing and
balance checks all pass but the currency transfer of the listing price from
buyer to seller fails, the whole operation fails with the propagated
currency-transfer error, and — under the host's transactional rollback —
the post-state reserved balances of buyer and seller and the recorded owner
equal their pre-state values. -/
theorem buy_payment_failure_is_atomic (cfg : Config) (st : St)
    (buyer kittyId seller price : Nat)
    (ho : st.owner kittyId = some seller) (hne : buyer ≠ seller)
    (hl : st.listForSale kittyId = some price)
    (hbal : price + cfg.stake < st.free buyer)
    (hed : st.free buyer - cfg.stake - price < cfg.ed) :
    buy cfg st buyer kittyId = .err .CurrencyTransferError ∧
    (buyPost st (buy cfg st buyer kittyId)).reserved buyer = st.reserved buyer ∧
    (buyPost st (buy cfg st buyer kittyId)).reserved seller = st.reserved seller ∧
    (buyPost st (buy cfg st buyer kittyId)).owner kittyId = st.owner kittyId := by
  have h := buy_transfer_fails cfg st buyer kittyId seller price ho hne hl hbal hed
  rw [h]
  exact ⟨rfl, rfl, rfl, rfl⟩

/-- Witness for C1: in `stA`, account 1 (free balance 7) buys kitty 0 from
account 2 at price 5 with stake 1; the checks pass (7 > 6) but the payment
would leave the buyer below the existential deposit 10, so the whole
operation fails and the observable state is unchanged. -/
theorem buy_payment_failure_is_atomic_w :
    buy cfg0 stA 1 0 = .err .CurrencyTransferError ∧
    (buyPost stA (buy cfg0 stA 1 0)).reserved 1 = stA.reserved 1 ∧
    (buyPost stA (buy cfg0 stA 1 0)).reserved 2 = stA.reserved 2 ∧
    (buyPost stA (buy cfg0 stA 1 0)).owner 0 = stA.owner 0 :=
  buy_payment_failure_is_atomic cfg0 stA 1 0 2 5 rfl (by decide) rfl
    (by decide) (by decide)

/-- Claim C2: for a successful breeding of two existing parents, the stored
child dna obeys `R[i] = (S[i] & P1[i]) | (~S[i] & P2[i])` for every byte
index, and per bit it is a multiplexer choosing the parent-A bit where the
selector bit is 1 and the parent-B bit where it is 0. -/
theorem breed_child_dna_is_mux (cfg : Config) (st st' : St)
    (who id1 id2 : Nat) (sel : Fin 16 → Nat) (k1 k2 : Kitty)
    (h1 : st.kitties id1 = some k1) (h2 : st.kitties id2 = some k2)
    (hb : breed cfg st who id1 id2 sel = .ok st') :
    st'.kitties (countVal st) = some ⟨childDna sel k1.dna k2.dna⟩ ∧
    (∀ i, childDna sel k1.dna k2.dna i =
      (sel i &&& k1.dna i) ||| ((255 ^^^ sel i) &&& k2.dna i)) ∧
    (∀ i : Fin 16, ∀ j : Nat, j < 8 →
      (childDna sel k1.dna k2.dna i).testBit j =
        if (sel i).testBit j then (k1.dna i).testBit j
        else (k2.dna i).testBit j) := by
  have hc := breed_ok_inv cfg st st' who id1 id2 sel k1 k2 h1 h2 hb
  obtain ⟨hk, _, _, _, _, _, _⟩ := cks_ok_fields cfg st st' who _ hc
  refine ⟨?_, fun i => rfl, fun i j hj => mux_testBit _ _ _ j hj⟩
  rw [hk, upd_self]

/-- Witness for C2: breeding kitties 0 (bytes 10101010) and 1 (bytes
01010101) in `stB` with selector bytes 11110000 succeeds and stores the
mux; bit 6 of each child byte comes from parent A, giving 1. -/
theorem breed_child_dna_is_mux_w :
    stBW.kitties (countVal stB) = some ⟨childDna selC dnaA dnaB⟩ ∧
    (childDna selC dnaA dnaB 0).testBit 6 =
      (if (selC 0).testBit 6 then (dnaA 0).testBit 6 else (dnaB 0).testBit 6) :=
  ⟨(breed_child_dna_is_mux cfg0 stB stBW 1 0 1 selC ⟨dnaA⟩ ⟨dnaB⟩ rfl rfl rfl).1,
   (breed_child_dna_is_mux cfg0 stB stBW 1 0 1 selC ⟨dnaA⟩ ⟨dnaB⟩ rfl rfl rfl).2.2
     0 6 (by decide)⟩

/-- Claim C3: every successful creation through `create_kitty_with_stake`
(the single route used by both `create` and `breed`), from a reachable
state, advances the asset count by exactly one, assigns an index that had
no asset record and no owner before the operation, stores the record,
records the caller as owner of that index, and emits the creation event
(caller, new index). -/
theorem create_success_effects (cfg : Config) (st st' : St) (who : Nat)
    (dna : Fin 16 → Nat) (hr : Reachable cfg st)
    (h : create_kitty_with_stake cfg st who dna = .ok st') :
    st'.kittiesCount = some (countVal st + 1) ∧
    countVal st' = countVal st + 1 ∧
    st.kitties (countVal st) = none ∧
    st.owner (countVal st) = none ∧
    st'.kitties (countVal st) = some ⟨dna⟩ ∧
    st'.owner (countVal st) = some who ∧
    st'.events = st.events ++ [.KittyCreate who (countVal st)] := by
  obtain ⟨hk, hown, hcnt, _, hev, _, _⟩ := cks_ok_fields cfg st st' who dna h
  have hf := reachable_fresh cfg st hr (countVal st) (le_refl _)
  exact ⟨hcnt, countVal_eq st' _ hcnt, hf.1, hf.2,
    by rw [hk, upd_self], by rw [hown, upd_self], hev⟩

/-- Witness for C3: the very first creation from genesis (account 1,
all-zero dna) assigns index 0, which was fresh, and sets count, record,
owner and event accordingly. -/
theorem create_success_effects_w :
    stW.kittiesCount = some (countVal (initSt free10) + 1) ∧
    countVal stW = countVal (initSt free10) + 1 ∧
    (initSt free10).kitties (countVal (initSt free10)) = none ∧
    (initSt free10).owner (countVal (initSt free10)) = none ∧
    stW.kitties (countVal (initSt free10)) = some ⟨dna0⟩ ∧
    stW.owner (countVal (initSt free10)) = some 1 ∧
    stW.events = (initSt free10).events ++
      [.KittyCreate 1 (countVal (initSt free10))] :=
  create_success_effects cfg0 (initSt free10) stW 1 dna0 (Reachable.init free10) rfl

/-- Claim C4: if reserving the stake from the creator fails in
`create_kitty_with_stake`, the operation returns
`NotEnoughBalanceForStaking`, and the kitties map, the owner map and the
counter are unchanged (the reservation is the first mutation, and the host
rolls back on error). -/
theorem create_stake_failure_unchanged (cfg : Config) (st : St) (who : Nat)
    (dna : Fin 16 → Nat) (hc : st.kittiesCount ≠ some cfg.maxIndex)
    (hb : st.free who < cfg.stake) :
    create_kitty_with_stake cfg st who dna = .error .NotEnoughBalanceForStaking ∧
    (dispatchPost st (create_kitty_with_stake cfg st who dna)).kitties =
      st.kitties ∧
    (dispatchPost st (create_kitty_with_stake cfg st who dna)).owner =
      st.owner ∧
    (dispatchPost st (create_kitty_with_stake cfg st who dna)).kittiesCount =
      st.kittiesCount := by
  have h : create_kitty_with_stake cfg st who dna =
      .error .NotEnoughBalanceForStaking := by
    unfold create_kitty_with_stake
    split
    · next id heq =>
        rw [if_neg (fun he => hc (by rw [heq, he]))]
        unfold doCreate
        rw [reserveC_none st who cfg.stake hb]
    · unfold doCreate
      rw [reserveC_none st who cfg.stake hb]
  rw [h]
  exact ⟨rfl, rfl, rfl, rfl⟩

/-- Witness for C4: at genesis with penniless accounts, creating fails with
`NotEnoughBalanceForStaking` and all registry state is untouched. -/
theorem create_stake_failure_unchanged_w :
    create_kitty_with_stake cfg0 stPoor 1 dna0 =
      .error .NotEnoughBalanceForStaking ∧
    (dispatchPost stPoor (create_kitty_with_stake cfg0 stPoor 1 dna0)).kitties =
      stPoor.kitties ∧
    (dispatchPost stPoor (create_kitty_with_stake cfg0 stPoor 1 dna0)).owner =
      stPoor.owner ∧
    (dispatchPost stPoor (create_kitty_with_stake cfg0 stPoor 1 dna0)).kittiesCount =
      stPoor.kittiesCount :=
  create_stake_failure_unchanged cfg0 stPoor 1 dna0 (by decide) (by decide)

/-- Claim C5: `transfer` fails with `NotOwner` unless the caller is the
recorded owner; it reserves a stake unit for the new owner before releasing
the old owner's, so when that reservation fails the operation aborts with
`NotEnoughBalanceForStaking`, ownership stays with the original owner, the
original owner's reservation is untouched and no event is emitted; only on
success is ownership reassigned and the transfer event emitted. -/
theorem transfer_checks_and_effects (cfg : Config) (st : St)
    (who newOwner kittyId : Nat) :
    (st.owner kittyId ≠ some who →
      transfer cfg st who newOwner kittyId = .error .NotOwner) ∧
    (st.owner kittyId = some who → st.free newOwner < cfg.stake →
      transfer cfg st who newOwner kittyId = .error .NotEnoughBalanceForStaking ∧
      (dispatchPost st (transfer cfg st who newOwner kittyId)).owner kittyId =
        some who ∧
      (dispatchPost st (transfer cfg st who newOwner kittyId)).reserved who =
        st.reserved who ∧
      (dispatchPost st (transfer cfg st who newOwner kittyId)).events =
        st.events) ∧
    (∀ st', transfer cfg st who newOwner kittyId = .ok st' →
      st'.owner kittyId = some newOwner ∧
      st'.events = st.events ++ [.KittyTransfer who newOwner kittyId]) := by
  refine ⟨?_, ?_, ?_⟩
  · intro hno
    unfold transfer
    rw [if_neg (fun he => hno he.symm)]
  · intro hw hlt
    have h : transfer cfg st who newOwner kittyId =
        .error .NotEnoughBalanceForStaking := by
      unfold transfer
      rw [if_pos hw.symm, reserveC_none st newOwner cfg.stake hlt]
    rw [h]
    exact ⟨rfl, hw, rfl, rfl⟩
  · intro st' hok
    obtain ⟨_, hown, _, _, _, hev, _⟩ :=
      transfer_ok_fields cfg st st' who newOwner kittyId hok
    exact ⟨by rw [hown, upd_self], hev⟩

/-- Witness for C5: in `stA`, owner 2 tries to gift kitty 0 to the
penniless account 4: the new reservation fails, the operation aborts with
`NotEnoughBalanceForStaking`, and ownership, the old reservation and the
event log are untouched. -/
theorem transfer_checks_and_effects_w :
    transfer cfg0 stA 2 4 0 = .error .NotEnoughBalanceForStaking ∧
    (dispatchPost stA (transfer cfg0 stA 2 4 0)).owner 0 = some 2 ∧
    (dispatchPost stA (transfer cfg0 stA 2 4 0)).reserved 2 = stA.reserved 2 ∧
    (dispatchPost stA (transfer cfg0 stA 2 4 0)).events = stA.events :=
  (transfer_checks_and_effects cfg0 stA 2 4 0).2.1 rfl (by decide)

/-- Claim C6: with the asset owned by someone else and listed at `price`,
`buy` fails with `NotEnoughBalanceForBuying` exactly when the buyer's free
balance does not strictly exceed price + stake; in particular a buyer whose
free balance equals price + stake exactly is rejected — the comparison is a
strict greater-than, not greater-or-equal. -/
theorem buy_requires_strictly_more (cfg : Config) (st : St)
    (buyer kittyId seller price : Nat)
    (ho : st.owner kittyId = some seller) (hne : buyer ≠ seller)
    (hl : st.listForSale kittyId = some price) :
    (st.free buyer = price + cfg.stake →
      buy cfg st buyer kittyId = .err .NotEnoughBalanceForBuying) ∧
    (buy cfg st buyer kittyId = .err .NotEnoughBalanceForBuying ↔
      st.free buyer ≤ price + cfg.stake) := by
  have main : buy cfg st buyer kittyId = .err .NotEnoughBalanceForBuying ↔
      st.free buyer ≤ price + cfg.stake := by
    constructor
    · intro heq
      by_contra hgt
      push_neg at hgt
      have hR := reserveC_of_le st buyer cfg.stake (by omega)
      simp only [buy, ho, hl] at heq
      rw [if_neg hne, if_pos (show st.free buyer > price + cfg.stake by omega)] at heq
      simp only [hR] at heq
      rcases ht : transferC cfg (unreserveC
          { st with free := upd st.free buyer (st.free buyer - cfg.stake),
                    reserved := upd st.reserved buyer (st.reserved buyer + cfg.stake) }
          seller cfg.stake) buyer seller price with _ | st3
      · simp only [ht] at heq
        injection heq with e
        exact Err.noConfusion e
      · simp only [ht] at heq
        exact Outcome.noConfusion heq
    · intro hle
      exact buy_insufficient cfg st buyer kittyId seller price ho hne hl hle
  exact ⟨fun he => main.mpr (by omega), main⟩

/-- Witness for C6: in `stA` account 3 holds exactly price + stake = 6, and
its purchase of kitty 0 is rejected with `NotEnoughBalanceForBuying`. -/
theorem buy_requires_strictly_more_w :
    buy cfg0 stA 3 0 = .err .NotEnoughBalanceForBuying ∧
    (buy cfg0 stA 3 0 = .err .NotEnoughBalanceForBuying ↔
      stA.free 3 ≤ 5 + cfg0.stake) :=
  ⟨(buy_requires_strictly_more cfg0 stA 3 0 2 5 rfl (by decide) rfl).1 (by decide),
   (buy_requires_strictly_more cfg0 stA 3 0 2 5 rfl (by decide) rfl).2⟩

/-- Claim C7: `breed(i, i)` fails with `SameParentIndex` for every index,
whether or not an asset with that index exists (the equality check precedes
the existence checks), and for distinct indices `breed` fails with
`InvalidKittyIndex` when either parent has no asset record. -/
theorem breed_parent_checks (cfg : Config) (st : St) (who : Nat) :
    (∀ i, ∀ sel : Fin 16 → Nat,
      breed cfg st who i i sel = .error .SameParentIndex) ∧
    (∀ i j, ∀ sel : Fin 16 → Nat, i ≠ j →
      st.kitties i = none ∨ st.kitties j = none →
      breed cfg st who i j sel = .error .InvalidKittyIndex) := by
  constructor
  · intro i sel
    unfold breed
    rw [if_pos rfl]
  · intro i j sel hne hor
    rcases hor with hi | hj
    · simp only [breed, hi]
      rw [if_neg hne]
    · rcases hki : st.kitties i with _ | k1
      · simp only [breed, hki]
        rw [if_neg hne]
      · simp only [breed, hki, hj]
        rw [if_neg hne]

/-- Witness for C7: in `stA` index 5 does not exist, yet `breed(5,5)` fails
with `SameParentIndex`; and `breed(0,5)` with existing parent 0 fails with
`InvalidKittyIndex`. -/
theorem breed_parent_checks_w :
    breed cfg0 stA 1 5 5 selC = .error .SameParentIndex ∧
    breed cfg0 stA 1 0 5 selC = .error .InvalidKittyIndex :=
  ⟨(breed_parent_checks cfg0 stA 1).1 5 selC,
   (breed_parent_checks cfg0 stA 1).2 0 5 selC (by decide) (Or.inr rfl)⟩

/-- Claim C8: `buy` resolves the owner by an unconditional unwrap: under
the precondition that the asset has a recorded owner the failure branch is
unreachable (the outcome is never the panic), while for an index with no
recorded owner the operation panics — a fail-fast precondition violation,
not a graceful `InvalidKittyIndex` error. -/
theorem buy_owner_unwrap (cfg : Config) (st : St) (buyer kittyId : Nat) :
    (st.owner kittyId = none →
      buy cfg st buyer kittyId = .panicked ∧
      buy cfg st buyer kittyId ≠ .err .InvalidKittyIndex) ∧
    (∀ s, st.owner kittyId = some s → buy cfg st buyer kittyId ≠ .panicked) := by
  constructor
  · intro ho
    have h := buy_panics cfg st buyer kittyId ho
    exact ⟨h, by rw [h]; exact fun he => Outcome.noConfusion he⟩
  · intro s ho
    exact buy_not_panicked cfg st buyer kittyId s ho

/-- Witness for C8: in `stA`, buying the ownerless index 7 panics (and is
not an `InvalidKittyIndex` error), while buying the owned index 0 never
reaches the panic branch. -/
theorem buy_owner_unwrap_w :
    (buy cfg0 stA 1 7 = .panicked ∧
      buy cfg0 stA 1 7 ≠ .err .InvalidKittyIndex) ∧
    buy cfg0 stA 1 0 ≠ .panicked :=
  ⟨(buy_owner_unwrap cfg0 stA 1 7).1 rfl, (buy_owner_unwrap cfg0 stA 1 0).2 2 rfl⟩

/-- Claim C9: `create_kitty_with_stake` fails with `KittiesCountOverflow`
exactly when the counter equals the maximum representable index; an unset
counter defaults to zero (the first asset gets index 0 and the counter
becomes 1); and across every successful operation the counter never
decreases, and with a positive maximum never exceeds it from a reachable
state — it never wraps numerically. -/
theorem counter_overflow_default_monotone (cfg : Config) :
    (∀ st : St, ∀ who : Nat, ∀ dna : Fin 16 → Nat,
      (create_kitty_with_stake cfg st who dna = .error .KittiesCountOverflow ↔
        st.kittiesCount = some cfg.maxIndex)) ∧
    (∀ st st' : St, ∀ who : Nat, ∀ dna : Fin 16 → Nat,
      st.kittiesCount = none → create_kitty_with_stake cfg st who dna = .ok st' →
      st'.kitties 0 = some ⟨dna⟩ ∧ st'.owner 0 = some who ∧
      st'.kittiesCount = some 1) ∧
    (∀ st st' : St, Step cfg st st' → countVal st ≤ countVal st') ∧
    (0 < cfg.maxIndex → ∀ st : St, Reachable cfg st →
      countVal st ≤ cfg.maxIndex) := by
  refine ⟨?_, ?_, ?_, ?_⟩
  · intro st who dna
    constructor
    · intro h
      unfold create_kitty_with_stake at h
      split at h
      · next id heq =>
          split at h
          · next he => rw [heq, he]
          · exact absurd h (doCreate_ne_overflow cfg st who dna _)
      · exact absurd h (doCreate_ne_overflow cfg st who dna _)
    · intro hc
      unfold create_kitty_with_stake
      simp only [hc]
      rw [if_true]
  · intro st st' who dna hn hok
    obtain ⟨hk, hown, hcnt, _, _, _, _⟩ := cks_ok_fields cfg st st' who dna hok
    have h0 := countVal_none st hn
    rw [h0] at hk hown hcnt
    exact ⟨by rw [hk, upd_self], by rw [hown, upd_self], by simp [hcnt]⟩
  · exact fun st st' h => step_count_mono cfg st st' h
  · exact fun hmax st hr => reachable_count_le cfg st hmax hr

/-- Witness for C9: with the counter at the maximum (100), creation fails
with `KittiesCountOverflow`; and from genesis (counter unset) the first
creation sets the counter to 1. -/
theorem counter_overflow_default_monotone_w :
    create_kitty_with_stake cfg0 stMax 1 dna0 = .error .KittiesCountOverflow ∧
    stW.kittiesCount = some 1 :=
  ⟨((counter_overflow_default_monotone cfg0).1 stMax 1 dna0).mpr rfl,
   ((counter_overflow_default_monotone cfg0).2.1 (initSt free10) stW 1 dna0
     rfl rfl).2.2⟩

/-- Claim C10: a successful direct `transfer` leaves the listing map
completely unchanged: in particular, if the asset was listed at price p by
the previous owner it is still listed at p afterwards, so after a gift a
third party can still buy at that price. -/
theorem transfer_preserves_listing (cfg : Config) (st st' : St)
    (who newOwner kittyId : Nat)
    (h : transfer cfg st who newOwner kittyId = .ok st') :
    (∀ i, st'.listForSale i = st.listForSale i) ∧
    (∀ p, st.listForSale kittyId = some p →
      st'.listForSale kittyId = some p) := by
  obtain ⟨_, _, _, hl, _, _, _⟩ :=
    transfer_ok_fields cfg st st' who newOwner kittyId h
  exact ⟨fun i => by rw [hl], fun p hp => by rw [hl]; exact hp⟩

/-- Witness for C10: owner 2 gifts the listed kitty 0 to account 3; the
listing entry (price 5) survives the transfer unchanged. -/
theorem transfer_preserves_listing_w :
    stTW.listForSale 0 = stA.listForSale 0 ∧ stTW.listForSale 0 = some 5 :=
  ⟨(transfer_preserves_listing cfg0 stA stTW 2 3 0 rfl).1 0,
   (transfer_preserves_listing cfg0 stA stTW 2 3 0 rfl).2 5 rfl⟩
